import Mathlib

/-!
Verification development for the `arduino-hc12` driver (src/HC12.h, src/HC12.cpp).

The driver wraps an HC-12 433 MHz radio module.  It tracks, for each of the
four configurable parameters (baud rate, operational mode, channel, transmit
power), a pair of values inside the generic helper class `Updatable<T>`:
`newValue` (the staged / desired value) and `currentValue` (the last
device-confirmed value).  `UpdateParams` runs a fixed sequence of push/pull
exchanges over a line-oriented AT-command protocol.

Shallow embedding conventions:
* C++ `enum class` values that the code freely casts to and from integers
  (`Baudrates`, `OperationalMode`, `TransmitPower`) are embedded as `Int`,
  using the enumerator's numeric value (`FU3 = 3`, `mW_100_0 = 8`,
  `BPS_138400 = 138400`, ...).
* Arduino `String` is embedded as `List Char`; `str s` converts a Lean string
  literal to that representation.  The helpers `substringA`, `removeA`,
  `atol`, `intToStr` mirror the Arduino `String` member functions used by the
  driver (`substring`, `remove`, `toInt`, the `String(int)` constructor).
* The serial transport is embedded as the list of (already trimmed) reply
  lines that `SendCommandAndGetResult` would return, consumed one per
  exchange; an exhausted list yields the empty reply, exactly like a timeout
  (`readStringUntil` returning nothing, then `trim`).
* The `unsigned int` field `baudrate` stores values reduced mod 2^32
  (`toUInt32`) at every point where the C++ code converts `int` →
  `unsigned int`.
* Hardware-only concerns (the SET pin, `CommandMode`, `delay`, the `Stream`
  base class) have no observable effect on the configuration state and are
  not embedded.
-/

/-- Convert a Lean string literal to the `List Char` embedding of an Arduino
`String`. -/
def str (s : String) : List Char := s.data

/-- The reply to one AT command exchange, already trimmed (the result of
`SendCommandAndGetResult`). -/
abbrev Reply := List Char

/-- `int` → `unsigned int` conversion (reduction modulo 2^32); applied
wherever the C++ source converts a signed value into the `unsigned int`
baudrate field. -/
def toUInt32 (i : Int) : Int := i % 4294967296

/-- Embedding of the helper class `Updatable<T>` (src/HC12.h lines 114-183):
`newValue` and `currentValue` fields. -/
structure Updatable (T : Type) where
  newValue : T
  currentValue : T
deriving DecidableEq

/-- The `Updatable(T current)` constructor: both fields start as `current`
(src/HC12.h line 121). -/
def Updatable.init {T : Type} (current : T) : Updatable T :=
  { newValue := current, currentValue := current }

/-- `Updatable::HasChanged` (src/HC12.h lines 130-133):
`newValue != currentValue`. -/
def Updatable.HasChanged {T : Type} [DecidableEq T] (u : Updatable T) : Bool :=
  decide (u.newValue ≠ u.currentValue)

/-- `Updatable::Current` (src/HC12.h lines 140-143): returns `currentValue`. -/
def Updatable.Current {T : Type} (u : Updatable T) : T := u.currentValue

/-- `Updatable::New` (src/HC12.h lines 150-163).  Note: the source returns
`currentValue` (in both overloads), not `newValue`, even though its own doc
comment says it returns "what is going to be the new value". -/
def Updatable.New {T : Type} (u : Updatable T) : T := u.currentValue

/-- Assignment through the reference returned by `Updatable::New()`
(`x.New() = v`, as every `PrepareX` setter does): since `New()` returns a
reference to `currentValue` (src/HC12.h lines 150-153), the assignment writes
the `currentValue` field. -/
def Updatable.assignNew {T : Type} (u : Updatable T) (v : T) : Updatable T :=
  { u with currentValue := v }

/-- `Updatable::MarkUpdated` (src/HC12.h lines 169-172):
`currentValue = newValue`. -/
def Updatable.MarkUpdated {T : Type} (u : Updatable T) : Updatable T :=
  { u with currentValue := u.newValue }

/-- `Updatable::ForceUpdateCurrent` (src/HC12.h lines 179-182):
`currentValue = current`. -/
def Updatable.ForceUpdateCurrent {T : Type} (u : Updatable T) (v : T) : Updatable T :=
  { u with currentValue := v }

/-- The configuration state of an `HC12` object: its four `Updatable` fields
(src/HC12.h lines 189-192).  `baudrate` is `Updatable<unsigned int>`,
`operationalMode` is `Updatable<OperationalMode>`, `channel` is
`Updatable<int>`, `transmitPower` is `Updatable<TransmitPower>`; the enum
types are embedded by their numeric values. -/
structure HC12State where
  baudrate : Updatable Int
  operationalMode : Updatable Int
  channel : Updatable Int
  transmitPower : Updatable Int
deriving DecidableEq

/-- Decimal digit → character (`'0'` ... `'9'`); the characters produced by
the C/C++ integer-to-string conversions. -/
def digitChar (d : Nat) : Char :=
  match d with
  | 0 => '0'
  | 1 => '1'
  | 2 => '2'
  | 3 => '3'
  | 4 => '4'
  | 5 => '5'
  | 6 => '6'
  | 7 => '7'
  | 8 => '8'
  | _ => '9'

/-- Numeric value of a decimal digit character. -/
def digitVal (c : Char) : Nat := c.toNat - 48

/-- The `isspace` class used by `atol`. -/
def isSpaceChar (c : Char) : Bool :=
  decide (c = ' ' ∨ c = '\t' ∨ c = '\n' ∨ c = '\x0b' ∨ c = '\x0c' ∨ c = '\r')

/-- Accumulate leading decimal digits (the digit-consuming loop of `atol`):
stops at the first non-digit character. -/
def parseDigits : List Char → Nat → Nat
  | [], acc => acc
  | c :: cs, acc => if c.isDigit then parseDigits cs (10 * acc + digitVal c) else acc

/-- Sign-and-digit part of `atol` (after whitespace skipping): optional
sign, then leading decimal digits; 0 when no digits follow. -/
def atolAux : List Char → Int
  | [] => 0
  | c :: rest =>
    if c = '-' then -(parseDigits rest 0 : Int)
    else if c = '+' then (parseDigits rest 0 : Int)
    else (parseDigits (c :: rest) 0 : Int)

/-- `String::toInt` = `atol`: skip leading whitespace, optional sign, then
leading decimal digits; 0 when no digits follow.  (Values are kept exact
rather than wrapped to `long`; theorems that quantify over arbitrary
integers carry an explicit 32-bit-`long` range hypothesis.) -/
def atol (s : List Char) : Int := atolAux (s.dropWhile isSpaceChar)

/-- Decimal digits of `n`, most significant first; `fuel` (any bound on `n`)
makes the recursion structural. -/
def natToStrAux : Nat → Nat → List Char
  | 0, _ => []
  | fuel + 1, n =>
    if n = 0 then [] else natToStrAux fuel (n / 10) ++ [digitChar (n % 10)]

/-- Decimal representation of a natural number (as `String(unsigned)` /
`String(int)` produce for non-negative values). -/
def natToStr (n : Nat) : List Char :=
  if n = 0 then ['0'] else natToStrAux n n

/-- `String(int)` / `String(unsigned int)`: decimal representation, with a
leading `'-'` for negative values. -/
def intToStr (i : Int) : List Char :=
  if i < 0 then '-' :: natToStr i.natAbs else natToStr i.toNat

/-- Arduino `String::substring(left, right)`: swaps the bounds if
`left > right`, returns `""` if `left >= length`, clamps `right` to the
length, and copies the half-open range `[left, right)`. -/
def substringA (s : List Char) (l r : Nat) : List Char :=
  if s.length ≤ min l r then [] else (s.take (max l r)).drop (min l r)

/-- Arduino `String::remove(index, count)`: deletes `count` characters
starting at `index` (clamped to the string). -/
def removeA (s : List Char) (idx cnt : Nat) : List Char :=
  s.take idx ++ s.drop (idx + cnt)

/-- The zero-padding loop of `HC12::UpdateChannel` (src/HC12.cpp lines
314-317): `while (channelString.length() != 3) channelString = "0" +
channelString;`.  `fuel` bounds the number of loop iterations; `none` means
the loop has not finished within `fuel` iterations (and, since prepending
only grows the string, `none` for every fuel value exactly when the C++
loop never terminates). -/
def padChannel : Nat → List Char → Option (List Char)
  | 0, _ => none
  | fuel + 1, s => if s.length = 3 then some s else padChannel fuel ('0' :: s)


namespace HC12

/-- `HC12::IsBaudrate` (src/HC12.h lines 398-409): membership in the
`Baudrates` enum, whose enumerators are `BPS_1200 = 1200`, `BPS_2400 = 2400`,
`BPS_4800 = 4800`, `BPS_9600 = 9600`, `BPS_19200 = 19200`,
`BPS_138400 = 138400`, `BPS_57600 = 57600`, `BPS_115200 = 115200`
(src/HC12.h lines 73-83; the sixth enumerator really is 138400 in the
source, not 38400). -/
def IsBaudrate (baud : Int) : Bool :=
  decide (baud = 1200 ∨ baud = 2400 ∨ baud = 4800 ∨ baud = 9600 ∨
    baud = 19200 ∨ baud = 138400 ∨ baud = 57600 ∨ baud = 115200)

/-- `HC12::IsOperationalMode` (src/HC12.h lines 363-369): one of
`FU1 = 1 .. FU4 = 4`. -/
def IsOperationalMode (mode : Int) : Bool :=
  decide (mode = 1 ∨ mode = 2 ∨ mode = 3 ∨ mode = 4)

/-- `HC12::DbmToTransmitPower` (src/HC12.cpp lines 397-431): the dBm →
power-level table.  The C++ version reports success through its return value
and writes the level through an out-parameter; this is embedded as
`Option Int` (`none` = `false`, i.e. the dBm value is not in the table). -/
def DbmToTransmitPower (dbm : Int) : Option Int :=
  if dbm = -1 then some 1
  else if dbm = 2 then some 2
  else if dbm = 5 then some 3
  else if dbm = 8 then some 4
  else if dbm = 11 then some 5
  else if dbm = 14 then some 6
  else if dbm = 17 then some 7
  else if dbm = 20 then some 8
  else none

/-- The `HC12::HC12` constructor (src/HC12.cpp lines 30-37).  It initializes
`baudrate((int)baud)` from the caller's argument, but hardcodes
`operationalMode(OperationalMode::FU3)`, `channel(1)` and
`transmitPower(TransmitPower::mW_100_0)`, ignoring the `mode`, `channel`
and `power` arguments. -/
def mk (baud : Int) (mode : Int) (channel : Int) (power : Int) : HC12State :=
  { baudrate := Updatable.init (toUInt32 baud),
    operationalMode := Updatable.init 3,
    channel := Updatable.init 1,
    transmitPower := Updatable.init 8 }

/-- `HC12::PrepareBaudrate` (src/HC12.cpp lines 46-52): if `IsBaudrate`,
assign `(int)baudrate` through `baudrate.New()` (the `unsigned int`
conversion applies on assignment). -/
def PrepareBaudrate (s : HC12State) (baudrate : Int) : HC12State :=
  if IsBaudrate baudrate then
    { s with baudrate := s.baudrate.assignNew (toUInt32 baudrate) }
  else s

/-- `HC12::PrepareOperationalMode` (src/HC12.cpp lines 54-57). -/
def PrepareOperationalMode (s : HC12State) (mode : Int) : HC12State :=
  { s with operationalMode := s.operationalMode.assignNew mode }

/-- `HC12::PrepareChannel` (src/HC12.cpp lines 59-62): stores the argument
with no validation. -/
def PrepareChannel (s : HC12State) (channel : Int) : HC12State :=
  { s with channel := s.channel.assignNew channel }

/-- `HC12::PrepareTransmitPower` (src/HC12.cpp lines 64-67). -/
def PrepareTransmitPower (s : HC12State) (power : Int) : HC12State :=
  { s with transmitPower := s.transmitPower.assignNew power }

/-- `HC12::GetBaudrate` (src/HC12.cpp lines 121-124). -/
def GetBaudrate (s : HC12State) : Int := s.baudrate.Current

/-- `HC12::GetOperationalMode` (src/HC12.cpp lines 126-129). -/
def GetOperationalMode (s : HC12State) : Int := s.operationalMode.Current

/-- `HC12::GetChannel` (src/HC12.cpp lines 131-134). -/
def GetChannel (s : HC12State) : Int := s.channel.Current

/-- `HC12::GetTransmitPower` (src/HC12.cpp lines 136-139). -/
def GetTransmitPower (s : HC12State) : Int := s.transmitPower.Current

/-- `HC12::Sleep` (src/HC12.cpp lines 141-145): sends `AT+SLEEP` and
compares the trimmed reply with the literal `"AT+SLEEP"`. -/
def Sleep (r : Reply) : Bool := decide (r = str "AT+SLEEP")

/-- `HC12::Reset` (src/HC12.cpp lines 147-161): sends `AT+DEFAULT`; on the
exact reply `"OK+DEFAULT"` reassigns all four `Updatable` fields to freshly
constructed defaults (9600 baud, channel 1, `mW_100_0` = level 8, `FU3` = 3),
otherwise leaves the state untouched. -/
def Reset (s : HC12State) (r : Reply) : HC12State × Bool :=
  if r = str "OK+DEFAULT" then
    ({ baudrate := Updatable.init 9600,
       operationalMode := Updatable.init 3,
       channel := Updatable.init 1,
       transmitPower := Updatable.init 8 }, true)
  else (s, false)

/-- `HC12::UpdateBaudrate` (src/HC12.cpp lines 212-226): push the staged baud
rate; succeed on the exact echo `"OK+B" + String(baudrate.New())`, then
`MarkUpdated`. -/
def UpdateBaudrate (s : HC12State) (r : Reply) : HC12State × Bool :=
  let kBaudrateString := intToStr s.baudrate.New
  if r = str "OK+B" ++ kBaudrateString then
    ({ s with baudrate := s.baudrate.MarkUpdated }, true)
  else (s, false)

/-- `HC12::RequestBaudrate` (src/HC12.cpp lines 228-249): pull the baud rate;
reply must start with `"OK+B"`, the remainder parses with `toInt` and must
satisfy `IsBaudrate`, then `ForceUpdateCurrent`. -/
def RequestBaudrate (s : HC12State) (r : Reply) : HC12State × Bool :=
  if (str "OK+B").isPrefixOf r = false then (s, false)
  else
    let result := removeA r 0 4
    let baud := atol result
    if IsBaudrate baud then
      ({ s with baudrate := s.baudrate.ForceUpdateCurrent (toUInt32 baud) }, true)
    else (s, false)

/-- `HC12::UpdateOperationalMode` (src/HC12.cpp lines 251-272): push the
staged mode; reply must start with `"OK+FU"`, its first character after the
prefix parses as the mode, which must satisfy `IsOperationalMode`, then
`MarkUpdated`. -/
def UpdateOperationalMode (s : HC12State) (r : Reply) : HC12State × Bool :=
  if (str "OK+FU").isPrefixOf r = false then (s, false)
  else
    let result := removeA r 0 5
    let power := atol (substringA result 0 1)
    if IsOperationalMode power then
      ({ s with operationalMode := s.operationalMode.MarkUpdated }, true)
    else (s, false)

/-- `HC12::RequestOperationalMode` (src/HC12.cpp lines 274-309): pull the
mode; reply must start with `"OK+FU"`, first character after the prefix is
the mode (`ForceUpdateCurrent` when valid); when more than one character
remains, `substring(3, length)` additionally parses as a baud rate
(`ForceUpdateCurrent` on the baudrate when valid) and the step result is
`power_success && baud_success`. -/
def RequestOperationalMode (s : HC12State) (r : Reply) : HC12State × Bool :=
  if (str "OK+FU").isPrefixOf r = false then (s, false)
  else
    let result := removeA r 0 5
    let power := atol (substringA result 0 1)
    let power_success := IsOperationalMode power
    let s1 := if power_success then
        { s with operationalMode := s.operationalMode.ForceUpdateCurrent power }
      else s
    if 1 < result.length then
      let baud := atol (substringA result 3 result.length)
      let baud_success := IsBaudrate baud
      let s2 := if baud_success then
          { s1 with baudrate := s1.baudrate.ForceUpdateCurrent (toUInt32 baud) }
        else s1
      (s2, power_success && baud_success)
    else (s1, power_success)

/-- `HC12::UpdateChannel` (src/HC12.cpp lines 311-329): zero-pad
`String(channel.New())` to 3 characters with the `while` loop (`none` when
that loop never terminates, see `padChannel`), then succeed on the exact
echo `"OK+C" + channelString` and `MarkUpdated`.  The fuel 4 is exact:
`padChannel_some_iff` shows more fuel never turns `none` into `some`. -/
def UpdateChannel (s : HC12State) (r : Reply) : Option (HC12State × Bool) :=
  match padChannel 4 (intToStr s.channel.New) with
  | none => none
  | some channelString =>
    some (if r = str "OK+C" ++ channelString then
        ({ s with channel := s.channel.MarkUpdated }, true)
      else (s, false))

/-- `HC12::RequestChannel` (src/HC12.cpp lines 331-351): pull the channel;
reply must start with `"OK+RC"`, the remainder parses with `toInt` and must
satisfy `0 < channel < 127`, then `ForceUpdateCurrent`. -/
def RequestChannel (s : HC12State) (r : Reply) : HC12State × Bool :=
  if (str "OK+RC").isPrefixOf r = false then (s, false)
  else
    let result := removeA r 0 5
    let channel := atol result
    if 0 < channel ∧ channel < 127 then
      ({ s with channel := s.channel.ForceUpdateCurrent channel }, true)
    else (s, false)

/-- `HC12::UpdateTransmitPower` (src/HC12.cpp lines 353-367): push the staged
power level; succeed on the exact echo `"OK+P" + String((int)New())`, then
`MarkUpdated`. -/
def UpdateTransmitPower (s : HC12State) (r : Reply) : HC12State × Bool :=
  let kChannelString := intToStr s.transmitPower.New
  if r = str "OK+P" ++ kChannelString then
    ({ s with transmitPower := s.transmitPower.MarkUpdated }, true)
  else (s, false)

/-- `HC12::RequestTransmitPower` (src/HC12.cpp lines 369-395): pull the power
level; reply must start with `"OK+RP:"` and end with `"dBm"`; the middle
parses with `toInt` and maps through `DbmToTransmitPower`, then
`ForceUpdateCurrent`. -/
def RequestTransmitPower (s : HC12State) (r : Reply) : HC12State × Bool :=
  if (str "OK+RP:").isPrefixOf r = false then (s, false)
  else if (str "dBm").isSuffixOf r = false then (s, false)
  else
    let r1 := removeA r 0 6
    let r2 := removeA r1 (r1.length - 3) 3
    match DbmToTransmitPower (atol r2) with
    | some power => ({ s with transmitPower := s.transmitPower.ForceUpdateCurrent power }, true)
    | none => (s, false)

end HC12

/-- Identifier of one conditional push/pull block of `HC12::UpdateParams`
(src/HC12.cpp lines 69-119), in source order. -/
inductive StepId where
  | baudPush
  | chanPush
  | chanPull
  | powerPush
  | powerPull
  | modePush
  | modePull
  | baudPull
deriving DecidableEq

/-- One conditional block of `HC12::UpdateParams`: a guard on the current
state and the exchange it performs.  `op` returns `none` when the exchange
does not terminate (only possible for the channel-padding loop). -/
structure StepDesc where
  tag : StepId
  cond : HC12State → Bool
  op : HC12State → Reply → Option (HC12State × Bool)

/-- Consume the next reply from the transport; an exhausted transport yields
the empty (timed-out) reply. -/
def takeReply : List Reply → Reply × List Reply
  | [] => ([], [])
  | r :: rs => (r, rs)

/-- One block of `UpdateParams`, success-flag form: the C++
`if (cond && !op()) success = false;`.  The guard never reads the
accumulated `success` flag. -/
def stepS (d : StepDesc) (a : HC12State × List Reply × Bool) :
    Option (HC12State × List Reply × Bool) :=
  if d.cond a.1 then
    match d.op a.1 (takeReply a.2.1).1 with
    | none => none
    | some (s', ok) => some (s', (takeReply a.2.1).2, a.2.2 && ok)
  else some a

/-- One block of `UpdateParams`, trace form: instead of folding the
exchange's outcome into the `success` flag, append `(tag, outcome)` to the
trace of executed exchanges. -/
def stepT (d : StepDesc) (a : HC12State × List Reply × List (StepId × Bool)) :
    Option (HC12State × List Reply × List (StepId × Bool)) :=
  if d.cond a.1 then
    match d.op a.1 (takeReply a.2.1).1 with
    | none => none
    | some (s', ok) => some (s', (takeReply a.2.1).2, a.2.2 ++ [(d.tag, ok)])
  else some a

/-- Run the blocks in order, success-flag form. -/
def runS : List StepDesc → HC12State × List Reply × Bool →
    Option (HC12State × List Reply × Bool)
  | [], a => some a
  | d :: ds, a =>
    match stepS d a with
    | none => none
    | some a' => runS ds a'

/-- Run the blocks in order, trace form. -/
def runT : List StepDesc → HC12State × List Reply × List (StepId × Bool) →
    Option (HC12State × List Reply × List (StepId × Bool))
  | [], a => some a
  | d :: ds, a =>
    match stepT d a with
    | none => none
    | some a' => runT ds a'

/-- The eight conditional blocks of `HC12::UpdateParams` (src/HC12.cpp lines
69-119), in source order.  Note the first block really guards the *baud-rate*
push with `transmitPower.HasChanged()` (src/HC12.cpp line 73). -/
def hc12Steps : List StepDesc :=
  [⟨.baudPush, fun t => t.transmitPower.HasChanged,
      fun t r => some (HC12.UpdateBaudrate t r)⟩,
   ⟨.chanPush, fun t => t.channel.HasChanged, HC12.UpdateChannel⟩,
   ⟨.chanPull, fun t => !t.channel.HasChanged,
      fun t r => some (HC12.RequestChannel t r)⟩,
   ⟨.powerPush, fun t => t.transmitPower.HasChanged,
      fun t r => some (HC12.UpdateTransmitPower t r)⟩,
   ⟨.powerPull, fun t => !t.transmitPower.HasChanged,
      fun t r => some (HC12.RequestTransmitPower t r)⟩,
   ⟨.modePush, fun t => t.operationalMode.HasChanged,
      fun t r => some (HC12.UpdateOperationalMode t r)⟩,
   ⟨.modePull, fun t => !t.operationalMode.HasChanged,
      fun t r => some (HC12.RequestOperationalMode t r)⟩,
   ⟨.baudPull, fun t => !t.baudrate.HasChanged,
      fun t r => some (HC12.RequestBaudrate t r)⟩]

/-- `HC12::UpdateParams` (src/HC12.cpp lines 69-119): run the eight blocks in
order with `success` starting `true`; each block that executes its exchange
and fails sets `success` to `false`; return the final flag.  `none` embeds a
run in which the channel-padding loop never terminates. -/
def HC12.UpdateParams (s : HC12State) (rs : List Reply) : Option (HC12State × Bool) :=
  Option.map (fun a => (a.1, a.2.2)) (runS hc12Steps (s, rs, true))

/-- Instrumented `HC12::UpdateParams`: same blocks, same order, but record
the `(step, outcome)` trace of the exchanges that actually execute. -/
def HC12.UpdateParamsTrace (s : HC12State) (rs : List Reply) :
    Option (HC12State × List Reply × List (StepId × Bool)) :=
  runT hc12Steps (s, rs, [])

/-- The level → dBm encoder implied by the table of
`HC12::DbmToTransmitPower` (the `TransmitPower` enum's dBm aliases,
src/HC12.h lines 59-66): used to build the device replies whose decoding the
power-table theorems examine. -/
def dbmOfLevel (L : Int) : Int :=
  if L = 1 then -1
  else if L = 2 then 2
  else if L = 3 then 5
  else if L = 4 then 8
  else if L = 5 then 11
  else if L = 6 then 14
  else if L = 7 then 17
  else 20

/-! ### Helper lemmas: decimal strings and parsing -/

lemma digitChar_spec (d : Nat) (h : d < 10) :
    (digitChar d).isDigit = true ∧ digitVal (digitChar d) = d ∧
      isSpaceChar (digitChar d) = false ∧ digitChar d ≠ '-' ∧ digitChar d ≠ '+' := by
  interval_cases d <;> refine ⟨by decide, by decide, by decide, by decide, by decide⟩

lemma isDigit_not_special (c : Char) (h : c.isDigit = true) :
    isSpaceChar c = false ∧ c ≠ '-' ∧ c ≠ '+' := by
  refine ⟨?_, ?_, ?_⟩
  · rw [isSpaceChar, decide_eq_false_iff_not]
    rintro (rfl | rfl | rfl | rfl | rfl | rfl) <;> exact absurd h (by decide)
  · rintro rfl; exact absurd h (by decide)
  · rintro rfl; exact absurd h (by decide)

lemma natToStrAux_digits (f : Nat) : ∀ n, ∀ c ∈ natToStrAux f n, c.isDigit = true := by
  induction f with
  | zero => intro n c hc; simp [natToStrAux] at hc
  | succ f ih =>
    intro n c hc
    by_cases hn : n = 0
    · simp [natToStrAux, hn] at hc
    · simp only [natToStrAux, hn, if_false, List.mem_append, List.mem_singleton] at hc
      rcases hc with hc | hc
      · exact ih _ c hc
      · subst hc; exact (digitChar_spec _ (Nat.mod_lt n (by omega))).1

lemma parseDigits_append_digits (xs : List Char) :
    ∀ ys acc, (∀ c ∈ xs, c.isDigit = true) →
      parseDigits (xs ++ ys) acc = parseDigits ys (parseDigits xs acc) := by
  induction xs with
  | nil => intro ys acc _; rfl
  | cons a l ih =>
    intro ys acc h
    have ha : a.isDigit = true := h a (List.mem_cons_self a l)
    simp only [List.cons_append, parseDigits, ha, if_true]
    exact ih ys _ (fun c hc => h c (List.mem_cons_of_mem a hc))

lemma parseDigits_natToStrAux (f : Nat) : ∀ n acc, n ≤ f →
    parseDigits (natToStrAux f n) acc = acc * 10 ^ (natToStrAux f n).length + n := by
  induction f with
  | zero => intro n acc h; interval_cases n; simp [natToStrAux, parseDigits]
  | succ f ih =>
    intro n acc h
    by_cases hn : n = 0
    · simp [natToStrAux, hn, parseDigits]
    · have hlt : n / 10 ≤ f := by omega
      simp only [natToStrAux, hn, if_false]
      rw [parseDigits_append_digits _ _ _ (natToStrAux_digits f (n / 10))]
      rw [ih _ acc hlt]
      have hd := digitChar_spec (n % 10) (Nat.mod_lt n (by omega))
      simp only [parseDigits, hd.1, if_true, hd.2.1, List.length_append,
        List.length_singleton]
      have h10 : 10 * (acc * 10 ^ (natToStrAux f (n / 10)).length + n / 10) + n % 10 =
          acc * 10 ^ ((natToStrAux f (n / 10)).length + 1) + n := by
        rw [pow_succ]
        have := Nat.div_add_mod n 10
        ring_nf
        omega
      exact h10

lemma parseDigits_natToStr (n : Nat) : parseDigits (natToStr n) 0 = n := by
  by_cases hn : n = 0
  · simp [natToStr, hn, parseDigits, digitVal]
  · simp only [natToStr, hn, if_false]
    rw [parseDigits_natToStrAux n n 0 le_rfl]
    simp

lemma natToStr_ne_nil (n : Nat) : natToStr n ≠ [] := by
  by_cases hn : n = 0
  · simp [natToStr, hn]
  · obtain ⟨f, rfl⟩ : ∃ f, n = f + 1 := ⟨n - 1, by omega⟩
    simp [natToStr, natToStrAux, hn]

lemma natToStr_digits (n : Nat) : ∀ c ∈ natToStr n, c.isDigit = true := by
  by_cases hn : n = 0
  · intro c hc; simp [natToStr, hn] at hc; subst hc; decide
  · intro c hc
    simp only [natToStr, hn, if_false] at hc
    exact natToStrAux_digits n n c hc

lemma atol_natToStr (n : Nat) : atol (natToStr n) = n := by
  obtain ⟨c, cs, hc⟩ : ∃ c cs, natToStr n = c :: cs := by
    cases h : natToStr n with
    | nil => exact absurd h (natToStr_ne_nil n)
    | cons c cs => exact ⟨c, cs, rfl⟩
  have hcd : c.isDigit = true := natToStr_digits n c (by rw [hc]; exact List.mem_cons_self c cs)
  have hspec := isDigit_not_special c hcd
  unfold atol
  rw [hc, List.dropWhile_cons, if_neg (by simp [hspec.1])]
  simp only [atolAux, if_neg hspec.2.1, if_neg hspec.2.2]
  rw [← hc, parseDigits_natToStr]

lemma atol_intToStr (d : Int) : atol (intToStr d) = d := by
  by_cases hd : d < 0
  · simp only [intToStr, hd, if_true]
    unfold atol
    rw [List.dropWhile_cons, if_neg (by simp [isSpaceChar])]
    simp only [atolAux, if_pos rfl]
    rw [parseDigits_natToStr]
    rw [Int.ofNat_natAbs_of_nonpos (le_of_lt hd)]
    simp
  · simp only [intToStr, hd, if_false]
    rw [atol_natToStr]
    omega

lemma natToStrAux_len (k : Nat) : ∀ f n, 10 ^ k ≤ n → n ≤ f →
    k + 1 ≤ (natToStrAux f n).length := by
  induction k with
  | zero =>
    intro f n hk hf
    have hn : n ≠ 0 := by simpa using Nat.one_le_iff_ne_zero.mp hk
    obtain ⟨f', rfl⟩ : ∃ f', f = f' + 1 := ⟨f - 1, by omega⟩
    simp [natToStrAux, hn]
  | succ k ih =>
    intro f n hk hf
    have hn : n ≠ 0 := by
      intro h
      subst h
      have hp : 0 < 10 ^ (k + 1) := by positivity
      omega
    obtain ⟨f', rfl⟩ : ∃ f', f = f' + 1 := ⟨f - 1, by omega⟩
    have hdiv : 10 ^ k ≤ n / 10 := by
      rw [Nat.le_div_iff_mul_le (by omega)]
      calc 10 ^ k * 10 = 10 ^ (k + 1) := by ring
        _ ≤ n := hk
    have hdivf : n / 10 ≤ f' := by omega
    simp only [natToStrAux, hn, if_false, List.length_append, List.length_singleton]
    have := ih f' (n / 10) hdiv hdivf
    omega

lemma intToStr_len4 (c : Int) (h : 1000 ≤ c ∨ c ≤ -100) : 4 ≤ (intToStr c).length := by
  rcases h with h | h
  · have hc : ¬ c < 0 := by omega
    simp only [intToStr, hc, if_false]
    have h1 : (1000 : Nat) ≤ c.toNat := by omega
    have hne : c.toNat ≠ 0 := by omega
    simp only [natToStr, hne, if_false]
    have := natToStrAux_len 3 c.toNat c.toNat (by norm_num; omega) le_rfl
    omega
  · have hc : c < 0 := by omega
    simp only [intToStr, hc, if_true, List.length_cons]
    have h1 : (100 : Nat) ≤ c.natAbs := by omega
    have hne : c.natAbs ≠ 0 := by omega
    simp only [natToStr, hne, if_false]
    have := natToStrAux_len 2 c.natAbs c.natAbs (by norm_num; omega) le_rfl
    omega

lemma padChannel_some_iff : ∀ (n : Nat) (s t : List Char),
    padChannel n s = some t ↔
      (s.length ≤ 3 ∧ 4 - s.length ≤ n ∧ t = List.replicate (3 - s.length) '0' ++ s) := by
  intro n
  induction n with
  | zero =>
    intro s t
    simp only [padChannel]
    constructor
    · intro h; exact absurd h (by simp)
    · rintro ⟨h1, h2, _⟩; omega
  | succ n ih =>
    intro s t
    by_cases h3 : s.length = 3
    · simp only [padChannel, h3, if_true]
      constructor
      · intro h
        have ht : t = s := (Option.some.inj h).symm
        subst ht
        exact ⟨by omega, by omega, by simp [h3]⟩
      · rintro ⟨_, _, rfl⟩
        simp [h3]
    · simp only [padChannel, h3, if_false]
      rw [ih ('0' :: s) t]
      simp only [List.length_cons]
      constructor
      · rintro ⟨h1, h2, rfl⟩
        refine ⟨by omega, by omega, ?_⟩
        have hrep : (3 - s.length) = (3 - (s.length + 1)) + 1 := by omega
        rw [hrep, List.replicate_succ']
        simp
      · rintro ⟨h1, h2, rfl⟩
        have hlen : s.length + 1 ≤ 3 := by omega
        refine ⟨hlen, by omega, ?_⟩
        have hrep : (3 - s.length) = (3 - (s.length + 1)) + 1 := by omega
        rw [hrep, List.replicate_succ']
        simp

/-! ### Helper lemmas: list affixes -/

lemma isPrefixOf_append (l t : List Char) : l.isPrefixOf (l ++ t) = true := by
  rw [List.isPrefixOf_iff_prefix]
  exact List.prefix_append l t

lemma isSuffixOf_append (l t : List Char) : l.isSuffixOf (t ++ l) = true := by
  rw [List.isSuffixOf_iff_suffix]
  exact List.suffix_append t l

/-! ### Helper lemmas: the UpdateParams engine

`stepS`/`runS` (the success-flag form that `HC12.UpdateParams` uses) and
`stepT`/`runT` (the trace form) run the same guards and the same exchanges;
the lemmas below connect the final `success` flag to the recorded trace and
show that the trace only ever grows. -/

lemma stepS_stepT (d : StepDesc) (s : HC12State) (rs : List Reply)
    (l : List (StepId × Bool)) :
    stepS d (s, rs, (l.map Prod.snd).all id) =
      Option.map (fun a => (a.1, a.2.1, (a.2.2.map Prod.snd).all id))
        (stepT d (s, rs, l)) := by
  unfold stepS stepT
  by_cases hc : d.cond s
  · simp only [hc, if_true]
    cases hop : d.op s (takeReply rs).1 with
    | none => rfl
    | some p =>
      obtain ⟨s', ok⟩ := p
      simp [List.all_append]
  · simp [hc]

lemma runS_runT (ds : List StepDesc) :
    ∀ s rs l, runS ds (s, rs, (l.map Prod.snd).all id) =
      Option.map (fun a => (a.1, a.2.1, (a.2.2.map Prod.snd).all id))
        (runT ds (s, rs, l)) := by
  induction ds with
  | nil => intro s rs l; rfl
  | cons d ds ih =>
    intro s rs l
    simp only [runS, runT]
    rw [stepS_stepT]
    cases ht : stepT d (s, rs, l) with
    | none => rfl
    | some a' =>
      obtain ⟨s', rs', l'⟩ := a'
      simpa using ih s' rs' l'

lemma runT_step_some (d : StepDesc) (ds : List StepDesc) (a acc)
    (h : runT (d :: ds) a = some acc) :
    ∃ a', stepT d a = some a' ∧ runT ds a' = some acc := by
  simp only [runT] at h
  cases ht : stepT d a with
  | none => rw [ht] at h; exact absurd h (by simp)
  | some a' => rw [ht] at h; exact ⟨a', rfl, h⟩

lemma stepT_exec (d : StepDesc) (a a') (hc : d.cond a.1 = true)
    (h : stepT d a = some a') : ∃ ok, a'.2.2 = a.2.2 ++ [(d.tag, ok)] := by
  unfold stepT at h
  simp only [hc, if_true] at h
  cases hop : d.op a.1 (takeReply a.2.1).1 with
  | none => rw [hop] at h; exact absurd h (by simp)
  | some p =>
    obtain ⟨s', ok⟩ := p
    rw [hop] at h
    refine ⟨ok, ?_⟩
    rw [← Option.some.inj h]

lemma stepT_skip (d : StepDesc) (a a') (hc : d.cond a.1 = false)
    (h : stepT d a = some a') : a' = a := by
  unfold stepT at h
  simp only [hc, Bool.false_eq_true, if_false] at h
  exact (Option.some.inj h).symm

lemma runT_mono (ds : List StepDesc) :
    ∀ a acc, runT ds a = some acc → ∃ l2, acc.2.2 = a.2.2 ++ l2 := by
  induction ds with
  | nil =>
    intro a acc h
    simp only [runT] at h
    cases Option.some.inj h
    exact ⟨[], by simp⟩
  | cons d ds ih =>
    intro a acc h
    obtain ⟨a', h1, h2⟩ := runT_step_some d ds a acc h
    obtain ⟨l2, hl2⟩ := ih a' acc h2
    by_cases hc : d.cond a.1
    · obtain ⟨ok, hok⟩ := stepT_exec d a a' hc h1
      exact ⟨[(d.tag, ok)] ++ l2, by rw [hl2, hok, List.append_assoc]⟩
    · have := stepT_skip d a a' (by simpa using hc) h1
      subst this
      exact ⟨l2, hl2⟩

lemma runT_pair_mem (dP dQ : StepDesc) (ds : List StepDesc)
    (hneg : ∀ t, dQ.cond t = !dP.cond t) :
    ∀ a acc, runT (dP :: dQ :: ds) a = some acc →
      (∃ b, (dP.tag, b) ∈ acc.2.2) ∨ (∃ b, (dQ.tag, b) ∈ acc.2.2) := by
  intro a acc h
  obtain ⟨a1, h1, hrest⟩ := runT_step_some dP (dQ :: ds) a acc h
  by_cases hc : dP.cond a.1
  · obtain ⟨ok, hok⟩ := stepT_exec dP a a1 hc h1
    obtain ⟨l2, hl2⟩ := runT_mono (dQ :: ds) a1 acc hrest
    left
    exact ⟨ok, by rw [hl2, hok]; simp⟩
  · rw [stepT_skip dP a a1 (by simpa using hc) h1] at hrest
    obtain ⟨a2, h2, hrest2⟩ := runT_step_some dQ ds a acc hrest
    have hcq : dQ.cond a.1 = true := by
      rw [hneg]
      simpa using hc
    obtain ⟨ok, hok⟩ := stepT_exec dQ a a2 hcq h2
    obtain ⟨l2, hl2⟩ := runT_mono ds a2 acc hrest2
    right
    exact ⟨ok, by rw [hl2, hok]; simp⟩

/-! ### The claims -/

/-- C1: the claim says staging a value `v ≠ confirmed()` through the
desired-value accessor (as the `PrepareX` setters do) leaves `confirmed()`
unchanged and makes `has_changed()` true.  The code refutes it:
`Updatable::New()` returns a reference to `currentValue` (src/HC12.h lines
150-163), so staging overwrites the confirmed value.  Concretely: on
`Updatable(1)`, staging 2 moves `Current()` from 1 to 2; on an instance with
`confirmed = 5`, `desired = 1`, staging `1 ≠ 5` even leaves `HasChanged()`
false; and `PrepareChannel(42)` moves the channel's confirmed value from 1
to 42. -/
theorem staging_mutates_confirmed :
    ((Updatable.init (1 : Int)).assignNew 2).Current = 2
    ∧ (Updatable.init (1 : Int)).Current = 1
    ∧ (((Updatable.init (1 : Int)).ForceUpdateCurrent 5).assignNew 1).HasChanged = false
    ∧ (HC12.PrepareChannel (HC12.mk 9600 3 1 8) 42).channel.Current = 42
    ∧ (HC12.mk 9600 3 1 8).channel.Current = 1 := by
  refine ⟨by decide, by decide, by decide, by decide, by decide⟩

/-- C2: the claim says each parameter is pushed exactly when its own
`has_changed()` is true — in particular a changed baud rate is pushed.  The
code refutes it: the baud push is guarded by `transmitPower.HasChanged()`
(src/HC12.cpp line 73) and the baud pull by `!baudrate.HasChanged()` (line
113), so in a state whose baud rate alone has changed `UpdateParams`
performs *no* baud exchange at all: the executed trace is exactly channel
pull, power pull, mode pull. -/
theorem baud_push_gated_on_power :
    (HC12.PrepareBaudrate (HC12.mk 9600 3 1 8) 115200).baudrate.HasChanged = true
    ∧ HC12.UpdateParamsTrace (HC12.PrepareBaudrate (HC12.mk 9600 3 1 8) 115200) [] =
        some (HC12.PrepareBaudrate (HC12.mk 9600 3 1 8) 115200, [],
          [(StepId.chanPull, false), (StepId.powerPull, false), (StepId.modePull, false)])
    ∧ (∀ b : Bool,
        (StepId.baudPush, b) ∉ [(StepId.chanPull, false), (StepId.powerPull, false),
          (StepId.modePull, false)]
        ∧ (StepId.baudPull, b) ∉ [(StepId.chanPull, false), (StepId.powerPull, false),
          (StepId.modePull, false)]) := by
  refine ⟨by decide, by decide, by decide⟩

/-- C3: the claim says `IsBaudrate` accepts exactly
{1200, 2400, 4800, 9600, 19200, 38400, 57600, 115200}, so 38400 is accepted
and 138400 rejected.  The code refutes it: the `Baudrates` enumerator is
`BPS_138400 = 138400` (src/HC12.h line 80), so `IsBaudrate 38400` is false
and `IsBaudrate 138400` is true. -/
theorem isBaudrate_wrong_entry :
    HC12.IsBaudrate 38400 = false ∧ HC12.IsBaudrate 138400 = true := by
  refine ⟨by decide, by decide⟩

/-- C4: the claim says a freshly constructed module has
confirmed = desired = the caller's value for all four parameters.  The code
refutes it: the constructor (src/HC12.cpp lines 30-37) honors only `baud`
and hardcodes mode `FU3`, channel 1 and power `mW_100_0`; constructing with
mode `FU1` (1), channel 5 and power level 1 yields mode 3, channel 1,
power 8. -/
theorem constructor_ignores_args :
    HC12.mk 9600 1 5 1 =
      { baudrate := ⟨9600, 9600⟩, operationalMode := ⟨3, 3⟩,
        channel := ⟨1, 1⟩, transmitPower := ⟨8, 8⟩ }
    ∧ (HC12.mk 9600 1 5 1).operationalMode.Current ≠ 1
    ∧ (HC12.mk 9600 1 5 1).channel.Current ≠ 5
    ∧ (HC12.mk 9600 1 5 1).transmitPower.Current ≠ 1 := by
  refine ⟨by decide, by decide, by decide, by decide⟩

/-- C5 (amended): in every run of `UpdateParams` that terminates (returns at
all), the boolean result equals the conjunction of the outcomes of exactly
the exchanges that executed, and the channel, transmit-power and
operational-mode parameters are each attempted (at least one push or pull
appears in the trace) no matter how any other exchange fared — no block is
gated on the accumulated `success` flag. -/
theorem updateParams_not_short_circuited : ∀ (s : HC12State) (rs : List Reply),
    HC12.UpdateParams s rs =
      Option.map (fun a => (a.1, (a.2.2.map Prod.snd).all id)) (HC12.UpdateParamsTrace s rs)
    ∧ (∀ acc, HC12.UpdateParamsTrace s rs = some acc →
        ((∃ b, (StepId.chanPush, b) ∈ acc.2.2) ∨ (∃ b, (StepId.chanPull, b) ∈ acc.2.2))
      ∧ ((∃ b, (StepId.powerPush, b) ∈ acc.2.2) ∨ (∃ b, (StepId.powerPull, b) ∈ acc.2.2))
      ∧ ((∃ b, (StepId.modePush, b) ∈ acc.2.2) ∨ (∃ b, (StepId.modePull, b) ∈ acc.2.2))) := by
  intro s rs
  constructor
  · unfold HC12.UpdateParams HC12.UpdateParamsTrace
    have h := runS_runT hc12Steps s rs []
    simp only [List.map_nil, List.all_nil] at h
    rw [h, Option.map_map]
    rfl
  · intro acc h
    unfold HC12.UpdateParamsTrace hc12Steps at h
    obtain ⟨a1, h1, h2⟩ := runT_step_some _ _ _ _ h
    have hchan := runT_pair_mem _ _ _ (fun t => rfl) a1 acc h2
    obtain ⟨a2, h2a, h3⟩ := runT_step_some _ _ _ _ h2
    obtain ⟨a3, h3a, h4⟩ := runT_step_some _ _ _ _ h3
    have hpow := runT_pair_mem _ _ _ (fun t => rfl) a3 acc h4
    obtain ⟨a4, h4a, h5⟩ := runT_step_some _ _ _ _ h4
    obtain ⟨a5, h5a, h6⟩ := runT_step_some _ _ _ _ h5
    have hmode := runT_pair_mem _ _ _ (fun t => rfl) a5 acc h6
    exact ⟨hchan, hpow, hmode⟩

/-- C5 witness: the all-pulls run from the default state with an exhausted
transport executes the channel, power and mode pulls (and they appear in the
trace). -/
theorem updateParams_not_short_circuited_witness :
    ((∃ b, (StepId.chanPush, b) ∈ [(StepId.chanPull, false), (StepId.powerPull, false),
        (StepId.modePull, false), (StepId.baudPull, false)])
      ∨ (∃ b, (StepId.chanPull, b) ∈ [(StepId.chanPull, false), (StepId.powerPull, false),
        (StepId.modePull, false), (StepId.baudPull, false)]))
    ∧ ((∃ b, (StepId.powerPush, b) ∈ [(StepId.chanPull, false), (StepId.powerPull, false),
        (StepId.modePull, false), (StepId.baudPull, false)])
      ∨ (∃ b, (StepId.powerPull, b) ∈ [(StepId.chanPull, false), (StepId.powerPull, false),
        (StepId.modePull, false), (StepId.baudPull, false)]))
    ∧ ((∃ b, (StepId.modePush, b) ∈ [(StepId.chanPull, false), (StepId.powerPull, false),
        (StepId.modePull, false), (StepId.baudPull, false)])
      ∨ (∃ b, (StepId.modePull, b) ∈ [(StepId.chanPull, false), (StepId.powerPull, false),
        (StepId.modePull, false), (StepId.baudPull, false)])) :=
  (updateParams_not_short_circuited (HC12.mk 9600 3 1 8) []).2
    (HC12.mk 9600 3 1 8, [],
      [(StepId.chanPull, false), (StepId.powerPull, false),
        (StepId.modePull, false), (StepId.baudPull, false)]) (by decide)

/-- C5 counterexample: the claim as stated quantifies over *every* initial
state, but with a staged channel of 1000 (4 decimal characters) the
channel-padding loop never terminates, so `UpdateParams` never executes the
later steps and produces no boolean result at all (`none` in this
embedding). -/
theorem updateParams_diverges :
    HC12.UpdateParams (HC12.PrepareChannel (HC12.mk 9600 3 1 8) 1000) [] = none
    ∧ (HC12.PrepareChannel (HC12.mk 9600 3 1 8) 1000).channel.HasChanged = true := by
  refine ⟨by decide, by decide⟩

/-- C6: `Reset` succeeds exactly when the trimmed reply is `"OK+DEFAULT"`;
on success all four `Updatable` fields are reconstructed at the defaults
(baud 9600, mode `FU3` = 3, channel 1, power `mW_100_0` = level 8), which
sets desired and confirmed alike; on failure the state is untouched. -/
theorem reset_defaults_or_unchanged : ∀ (s : HC12State) (r : Reply),
    ((HC12.Reset s r).2 = true ↔ r = str "OK+DEFAULT")
    ∧ (HC12.Reset s r).1 =
        (if r = str "OK+DEFAULT" then
          { baudrate := Updatable.init 9600, operationalMode := Updatable.init 3,
            channel := Updatable.init 1, transmitPower := Updatable.init 8 }
        else s) := by
  intro s r
  unfold HC12.Reset
  by_cases h : r = str "OK+DEFAULT"
  · simp [h]
  · simp [h]

/-- C7: the dBm ↔ power-level table is a bijection over its 8 entries: for
each level L in 1..8, pulling the reply `"OK+RP:" ++ decimal(dbm(L)) ++
"dBm"` confirms exactly level L and succeeds; for every other
(`long`-ranged) integer dBm value the pull fails and the state is
untouched. -/
theorem power_dbm_table :
    (∀ (s : HC12State) (L : Int), 1 ≤ L → L ≤ 8 →
      HC12.RequestTransmitPower s (str "OK+RP:" ++ (intToStr (dbmOfLevel L) ++ str "dBm")) =
        ({ s with transmitPower := s.transmitPower.ForceUpdateCurrent L }, true))
    ∧ (∀ (s : HC12State) (d : Int), -2147483648 ≤ d → d ≤ 2147483647 →
        d ≠ -1 → d ≠ 2 → d ≠ 5 → d ≠ 8 → d ≠ 11 → d ≠ 14 → d ≠ 17 → d ≠ 20 →
        HC12.RequestTransmitPower s (str "OK+RP:" ++ (intToStr d ++ str "dBm")) = (s, false)) := by
  constructor
  · intro s L h1 h2
    interval_cases L <;> rfl
  · intro s d hlo hhi h1 h2 h3 h4 h5 h6 h7 h8
    have hpre : (str "OK+RP:").isPrefixOf (str "OK+RP:" ++ (intToStr d ++ str "dBm")) = true :=
      isPrefixOf_append _ _
    have hsuf : (str "dBm").isSuffixOf (str "OK+RP:" ++ (intToStr d ++ str "dBm")) = true := by
      rw [← List.append_assoc]
      exact isSuffixOf_append _ _
    unfold HC12.RequestTransmitPower
    rw [hpre, hsuf]
    have hr1 : removeA (str "OK+RP:" ++ (intToStr d ++ str "dBm")) 0 6 =
        intToStr d ++ str "dBm" := by
      unfold removeA
      simp only [List.take_zero, List.nil_append, Nat.zero_add]
      rw [show (6 : Nat) = (str "OK+RP:").length from rfl, List.drop_left]
    have hlen : (intToStr d ++ str "dBm").length - 3 = (intToStr d).length := by
      simp [List.length_append, str]
    have hr2 : removeA (intToStr d ++ str "dBm") ((intToStr d ++ str "dBm").length - 3) 3 =
        intToStr d := by
      rw [hlen]
      unfold removeA
      rw [List.take_left, List.drop_append]
      have hdBm : (str "dBm").drop 3 = [] := by decide
      rw [hdBm, List.append_nil]
    simp only [hr1, hr2, atol_intToStr]
    unfold HC12.DbmToTransmitPower
    simp [h1, h2, h3, h4, h5, h6, h7, h8]

/-- C7 witness: level 8 encodes to 20 dBm and decodes back to level 8; the
off-table value 3 dBm is rejected without touching the state. -/
theorem power_dbm_table_witness :
    HC12.RequestTransmitPower (HC12.mk 9600 3 1 8)
        (str "OK+RP:" ++ (intToStr (dbmOfLevel 8) ++ str "dBm")) =
      ({ HC12.mk 9600 3 1 8 with
          transmitPower := (HC12.mk 9600 3 1 8).transmitPower.ForceUpdateCurrent 8 }, true)
    ∧ HC12.RequestTransmitPower (HC12.mk 9600 3 1 8)
        (str "OK+RP:" ++ (intToStr 3 ++ str "dBm")) = (HC12.mk 9600 3 1 8, false) :=
  ⟨power_dbm_table.1 (HC12.mk 9600 3 1 8) 8 (by decide) (by decide),
   power_dbm_table.2 (HC12.mk 9600 3 1 8) 3 (by decide) (by decide) (by decide) (by decide)
     (by decide) (by decide) (by decide) (by decide) (by decide) (by decide)⟩

/-- C8 (amended): on a mode-pull reply with valid prefix and mode digit but
a non-empty remainder that does not decode to a valid baud rate, the mode
value *is* force-confirmed and the baud field left untouched, but the
mode-pull step as a whole reports *failure*: `RequestOperationalMode`
returns `power_success && baud_success` (src/HC12.cpp line 306), and
`baud_success` is false. -/
theorem mode_pull_remainder_reports_failure :
    ∀ (s : HC12State) (c : Char) (rest : List Char),
    c.isDigit = true →
    HC12.IsOperationalMode (digitVal c : Int) = true →
    rest ≠ [] →
    HC12.IsBaudrate (atol (substringA (c :: rest) 3 (c :: rest).length)) = false →
    HC12.RequestOperationalMode s (str "OK+FU" ++ c :: rest) =
      ({ s with operationalMode :=
          s.operationalMode.ForceUpdateCurrent (digitVal c : Int) }, false) := by
  intro s c rest hdig hmode hrest hbaud
  have hspec := isDigit_not_special c hdig
  have hpre : (str "OK+FU").isPrefixOf (str "OK+FU" ++ c :: rest) = true :=
    isPrefixOf_append _ _
  unfold HC12.RequestOperationalMode
  rw [hpre]
  have hdrop : removeA (str "OK+FU" ++ c :: rest) 0 5 = c :: rest := by
    unfold removeA
    simp only [List.take_zero, List.nil_append, Nat.zero_add]
    rw [show (5 : Nat) = (str "OK+FU").length from rfl, List.drop_left]
  have hsub : substringA (c :: rest) 0 1 = [c] := by
    unfold substringA
    simp
  have hatol : atol [c] = (digitVal c : Int) := by
    unfold atol
    rw [show ([c].dropWhile isSpaceChar) = [c] from by
      simp [List.dropWhile_cons, hspec.1]]
    simp only [atolAux, if_neg hspec.2.1, if_neg hspec.2.2, parseDigits, hdig, if_true]
    simp [parseDigits]
  have hlen : 1 < (c :: rest).length := by
    have := List.length_pos.mpr hrest
    simp only [List.length_cons]
    omega
  simp only [hdrop, hsub, hatol, hmode, if_true, hlen, if_pos, hbaud, Bool.and_false,
    Bool.true_eq_false, if_false]
  simp [hbaud]

/-- C8 witness: the reply `"OK+FU3XX1234"` (remainder `"1234"`, not a baud
rate) confirms mode 3 but the step returns false. -/
theorem mode_pull_remainder_reports_failure_witness :
    HC12.RequestOperationalMode (HC12.mk 9600 3 1 8) (str "OK+FU" ++ '3' :: str "XX1234") =
      ({ HC12.mk 9600 3 1 8 with operationalMode :=
          (HC12.mk 9600 3 1 8).operationalMode.ForceUpdateCurrent (digitVal '3' : Int) }, false) :=
  mode_pull_remainder_reports_failure (HC12.mk 9600 3 1 8) '3' (str "XX1234")
    (by decide) (by decide) (by decide) (by decide)

/-- C8 counterexample: the claim as stated says the mode-pull step "still
reports success" on such a reply; on `"OK+FU3XX1234"` the code confirms
mode 3, leaves the baud field untouched, and returns `false`. -/
theorem mode_pull_soft_success_refuted :
    (HC12.RequestOperationalMode (HC12.mk 9600 3 1 8) (str "OK+FU3XX1234")).2 = false
    ∧ (HC12.RequestOperationalMode (HC12.mk 9600 3 1 8)
        (str "OK+FU3XX1234")).1.operationalMode.Current = 3
    ∧ (HC12.RequestOperationalMode (HC12.mk 9600 3 1 8) (str "OK+FU3XX1234")).1.baudrate =
        (HC12.mk 9600 3 1 8).baudrate := by
  refine ⟨by decide, by decide, by decide⟩

/-- C9: `Sleep` succeeds exactly on the literal echo `"AT+SLEEP"`; in
particular the plausible acknowledgment `"OK+SLEEP"` fails. -/
theorem sleep_exact_echo :
    (∀ r : Reply, HC12.Sleep r = true ↔ r = str "AT+SLEEP")
    ∧ HC12.Sleep (str "OK+SLEEP") = false := by
  constructor
  · intro r
    simp [HC12.Sleep]
  · decide

/-- C10: `PrepareChannel` stores any `int` unvalidated (through the
`New()` accessor, i.e. into `currentValue`, which is also what
`UpdateChannel` reads back); the zero-padding loop on `String(channel)`
terminates exactly when the decimal representation has at most 3
characters, in which case it yields the 3-character zero-padded string;
with 4 or more characters (e.g. any channel ≥ 1000 or ≤ -100) it never
terminates, whatever the iteration bound. -/
theorem channel_pad_loop : ∀ c : Int,
    (∀ s : HC12State, (HC12.PrepareChannel s c).channel.New = c)
    ∧ ((∃ n t, padChannel n (intToStr c) = some t) ↔ (intToStr c).length ≤ 3)
    ∧ (∀ n t, padChannel n (intToStr c) = some t →
        t.length = 3 ∧ t = List.replicate (3 - (intToStr c).length) '0' ++ intToStr c)
    ∧ ((1000 ≤ c ∨ c ≤ -100) → ∀ n, padChannel n (intToStr c) = none) := by
  intro c
  refine ⟨fun s => rfl, ⟨?_, ?_⟩, ?_, ?_⟩
  · rintro ⟨n, t, h⟩
    exact ((padChannel_some_iff n _ t).mp h).1
  · intro h
    exact ⟨4, _, (padChannel_some_iff 4 _ _).mpr ⟨h, by omega, rfl⟩⟩
  · intro n t h
    obtain ⟨h1, _, h3⟩ := (padChannel_some_iff n _ t).mp h
    refine ⟨?_, h3⟩
    rw [h3]
    simp only [List.length_append, List.length_replicate]
    omega
  · intro hc n
    have h4 := intToStr_len4 c hc
    cases h : padChannel n (intToStr c) with
    | none => rfl
    | some t =>
      have := ((padChannel_some_iff n _ t).mp h).1
      omega

/-- C10 witness: the loop on channel -100 (four characters) yields nothing
for any fuel; on channel 42 it terminates with `"042"`. -/
theorem channel_pad_loop_witness :
    padChannel 10 (intToStr (-100)) = none
    ∧ ((str "042").length = 3
      ∧ str "042" = List.replicate (3 - (intToStr 42).length) '0' ++ intToStr 42) :=
  ⟨(channel_pad_loop (-100)).2.2.2 (Or.inr (by decide)) 10,
   (channel_pad_loop 42).2.2.1 4 (str "042") (by decide)⟩
